import Mathlib

/-!
# NABD shared-memory ring queue — verification of the specification claims

Shallow embedding of the NABD core (`src/unnamed/part_005` unoptimized core,
`src/unnamed/part_006` optimized core + persistence layer, headers in
`src/include/nabd` and `src/unnamed/part_001`).

Modelling conventions:
* The 64-bit `head`/`tail` counters are modelled as unbounded `Nat` operation
  counts; the value held by the machine's u64 cell is the count reduced
  `% 2^64`.  Since the code only ever increments these cells, each cell value
  is exactly the count `% 2^64` at every step, and every machine comparison /
  subtraction / narrowing store of the code is translated with an explicit
  `% 2^64` (resp. `% 2^32`, `% 2^16`) on the counts, so guards are evaluated
  exactly as the machine evaluates them.
* Slot memory is a map from physical slot index to the slot's header fields
  and payload bytes; `memcpy(payload, data, len)` overwrites the first `len`
  bytes and keeps the rest.
* The `NULL`-pointer argument checks and host-syscall failure paths (mmap,
  ftruncate, fopen failures) are outside the memory model and are not
  represented; every claim below is about non-NULL handles and successful
  host calls.
* `struct nabd`'s field `multi` is a pointer that no code in the repository
  ever assigns (`calloc` zeroes it), so it is modelled as a `Bool` that
  `nabd_open` leaves `false`.  The consumer-group functions of part_006 are
  nevertheless modelled in full, acting on a group table carried in the
  state, since their arithmetic is what several claims are about.
-/

/-! ## Constants (include/nabd/types.h, part_001) -/

def NABD_OK : Int := 0
def NABD_EMPTY : Int := -1
def NABD_FULL : Int := -2
def NABD_NOMEM : Int := -3
def NABD_INVALID : Int := -4
def NABD_EXISTS : Int := -5
def NABD_NOTFOUND : Int := -6
def NABD_TOOBIG : Int := -7
def NABD_CORRUPTED : Int := -8
def NABD_VERSION : Int := -9
def NABD_PERMISSION : Int := -10
def NABD_SYSERR : Int := -11

def NABD_MAGIC : Nat := 0x4442414E00010000
def NABD_VERSION_MAJOR : Nat := 0
def NABD_VERSION_MINOR : Nat := 1
def NABD_EXPECTED_VERSION : Nat := (NABD_VERSION_MAJOR <<< 16) ||| NABD_VERSION_MINOR
def NABD_DEFAULT_CAPACITY : Nat := 1024
def NABD_DEFAULT_SLOT_SIZE : Nat := 4096
def NABD_CREATE : Nat := 0x01
def NABD_PRODUCER : Nat := 0x02
def NABD_CONSUMER : Nat := 0x04
def NABD_MAX_CONSUMERS : Nat := 16

/-- `sizeof(nabd_slot_header_t)`: `{u16 length; u16 flags; u32 sequence}`. -/
def HDR_SIZE : Nat := 8

def U64 : Nat := 2 ^ 64
def U32 : Nat := 2 ^ 32
def U16 : Nat := 2 ^ 16

/-- The u64 subtraction `a - b` as the machine computes it on the cell values
`a % 2^64` and `b % 2^64` (wrap-around on underflow). -/
def usub64 (a b : Nat) : Nat := (a % U64 + (U64 - b % U64)) % U64

/-! ## Data model -/

/-- `nabd_slot_header_t` (part_001). The u16/u32 fields store the
already-narrowed values. -/
structure nabd_slot_header_t where
  length : Nat
  flags : Nat
  sequence : Nat
deriving Repr, DecidableEq

/-- `nabd_consumer_group_t` (part_001): per-group read cursor. -/
structure nabd_consumer_group_t where
  tail : Nat
  active : Nat
  group_id : Nat
deriving Repr, DecidableEq

/-- The queue state reachable through a `struct nabd` handle (part_006):
the mapped control block (`head`, `tail`, geometry), the ring of slots,
the handle-local zero-copy reservation state, and the (never-initialized)
multi-consumer table pointer together with the group table it would point
at. -/
structure Nabd where
  capacity : Nat
  slot_size : Nat
  mask : Nat
  head : Nat
  tail : Nat
  headers : Nat → nabd_slot_header_t
  payloads : Nat → List Nat
  reserved : Bool
  reserve_pos : Nat
  multi : Bool
  groups : Fin 16 → nabd_consumer_group_t

/-- Pointwise update of a slot map. -/
def updFn {α : Type} (f : Nat → α) (i : Nat) (v : α) : Nat → α :=
  fun j => if j = i then v else f j

/-- Pointwise update of the group table. -/
def updG (f : Fin 16 → nabd_consumer_group_t) (i : Fin 16) (v : nabd_consumer_group_t) : Fin 16 → nabd_consumer_group_t :=
  fun j => if j = i then v else f j

/-- `get_slot` / `nabd_mod_pow2` (part_006): physical index of logical index
`index`; the argument is the u64 cell value, masked with `capacity - 1`. -/
def slotIndex (q : Nabd) (index : Nat) : Nat := (index % U64) &&& q.mask

/-! ## Optimized core (part_006) -/

/-- `nabd_push` (part_006 lines 277-315). Returns the error code and the
post-state. `data` is the `len` bytes the caller passes; `len = data.length`. -/
def nabd_push (q : Nabd) (data : List Nat) : Int × Nabd :=
  let max_payload := q.slot_size - HDR_SIZE
  if data.length > max_payload then (NABD_TOOBIG, q)
  else if usub64 q.head q.tail ≥ q.capacity then (NABD_FULL, q)
  else
    let idx := slotIndex q q.head
    let payload := data ++ (q.payloads idx).drop data.length
    let hdr : nabd_slot_header_t := ⟨data.length % U16, 0, q.head % U32⟩
    (NABD_OK, { q with
      head := q.head + 1,
      headers := updFn q.headers idx hdr,
      payloads := updFn q.payloads idx payload })

/-- `nabd_pop` (part_006 lines 320-362). `buflen` is the caller's `*len`
in-value; the third component is the bytes copied into `buf` on success. -/
def nabd_pop (q : Nabd) (buflen : Nat) : Int × Nabd × Option (List Nat) :=
  if q.tail % U64 = q.head % U64 then (NABD_EMPTY, q, none)
  else
    let idx := slotIndex q q.tail
    let msg_len := (q.headers idx).length
    if msg_len > buflen then (NABD_TOOBIG, q, none)
    else (NABD_OK, { q with tail := q.tail + 1 }, some ((q.payloads idx).take msg_len))

/-- `nabd_reserve` (part_006 lines 367-389). The returned `*slot` pointer is
the payload area of the slot at `head`; the model records the reservation in
the handle state. -/
def nabd_reserve (q : Nabd) (len : Nat) : Int × Nabd :=
  if q.reserved then (NABD_INVALID, q)
  else if len > q.slot_size - HDR_SIZE then (NABD_TOOBIG, q)
  else if usub64 q.head q.tail ≥ q.capacity then (NABD_FULL, q)
  else (NABD_OK, { q with reserved := true, reserve_pos := q.head })

/-- `nabd_commit` (part_006 lines 394-409). -/
def nabd_commit (q : Nabd) (len : Nat) : Int × Nabd :=
  if q.reserved = false then (NABD_INVALID, q)
  else
    let idx := slotIndex q q.reserve_pos
    let hdr : nabd_slot_header_t := ⟨len % U16, 0, q.reserve_pos % U32⟩
    (NABD_OK, { q with
      headers := updFn q.headers idx hdr,
      head := q.reserve_pos + 1,
      reserved := false })

/-- Writing the caller's bytes through the pointer handed out by
`nabd_reserve` (the payload area of the slot at `reserve_pos`). -/
def writeReservedSlot (q : Nabd) (data : List Nat) : Nabd :=
  let idx := slotIndex q q.reserve_pos
  { q with payloads := updFn q.payloads idx (data ++ (q.payloads idx).drop data.length) }

/-- The reserve → write → commit sequence for input `data` (claim C6). -/
def reserve_write_commit (q : Nabd) (data : List Nat) : Int × Nabd :=
  let r := nabd_reserve q data.length
  if r.1 = NABD_OK then nabd_commit (writeReservedSlot r.2 data) data.length
  else (r.1, r.2)

/-- `nabd_peek` (part_006 lines 414-430): state unchanged; on success returns
the physical slot index of the payload pointer and the header length. -/
def nabd_peek (q : Nabd) : Int × Option (Nat × Nat) :=
  if q.tail % U64 = q.head % U64 then (NABD_EMPTY, none)
  else (NABD_OK, some (slotIndex q q.tail, (q.headers (slotIndex q q.tail)).length))

/-- `nabd_release` (part_006 lines 435-443): unconditional tail increment. -/
def nabd_release (q : Nabd) : Int × Nabd :=
  (NABD_OK, { q with tail := q.tail + 1 })

/-- `nabd_stats_t` (part_001). -/
structure nabd_stats_t where
  head : Nat
  tail : Nat
  capacity : Nat
  used : Nat
  slot_size : Nat
deriving Repr, DecidableEq

/-- `nabd_stats` (part_006 lines 448-459). -/
def nabd_stats (q : Nabd) : Int × nabd_stats_t :=
  (NABD_OK, ⟨q.head % U64, q.tail % U64, q.capacity, usub64 q.head q.tail, q.slot_size⟩)

/-- `nabd_empty` (part_006 lines 464-472). -/
def nabd_empty (q : Nabd) : Int :=
  if q.tail % U64 = q.head % U64 then 1 else 0

/-- `nabd_full` (part_006 lines 477-485). -/
def nabd_full (q : Nabd) : Int :=
  if usub64 q.head q.tail ≥ q.capacity then 1 else 0

/-! ## Multi-consumer functions (part_006 lines 532-760)

A consumer handle holds a group slot index; the functions below act on the
group table in the state. -/

/-- The linear scan of `nabd_consumer_create`: first group slot whose
`active` CAS from 0 succeeds. -/
def findFreeGroup (gs : Fin 16 → nabd_consumer_group_t) : Option (Fin 16) :=
  (List.finRange 16).find? (fun i => (gs i).active == 0)

/-- `nabd_consumer_create` (part_006 lines 532-579). Returns `none` on
failure (`errno = EINVAL` when `q->multi` is NULL, `ENOMEM` when all 16 slots
are claimed); on success the updated queue, the claimed slot and the assigned
group id. -/
def nabd_consumer_create (q : Nabd) (group_id : Nat) : Option (Nabd × Fin 16 × Nat) :=
  if q.multi = false then none
  else
    match findFreeGroup q.groups with
    | none => none
    | some i =>
      let assigned := if group_id ≠ 0 then group_id else i.val + 1
      some ({ q with groups := updG q.groups i ⟨q.head, 1, assigned⟩ }, i, assigned)

/-- `nabd_consumer_pop` (part_006 lines 636-675) for the handle bound to
group slot `g`. -/
def nabd_consumer_pop (q : Nabd) (g : Fin 16) (buflen : Nat) :
    Int × Nabd × Option (List Nat) :=
  let gtail := (q.groups g).tail
  if gtail % U64 ≥ q.head % U64 then (NABD_EMPTY, q, none)
  else
    let idx := slotIndex q gtail
    let msg_len := (q.headers idx).length
    if msg_len > buflen then (NABD_TOOBIG, q, none)
    else
      (NABD_OK,
       { q with groups := updG q.groups g { q.groups g with tail := gtail + 1 } },
       some ((q.payloads idx).take msg_len))

/-- `nabd_consumer_peek` (part_006 lines 680-699). -/
def nabd_consumer_peek (q : Nabd) (g : Fin 16) : Int × Option (Nat × Nat) :=
  let gtail := (q.groups g).tail
  if gtail % U64 ≥ q.head % U64 then (NABD_EMPTY, none)
  else (NABD_OK, some (slotIndex q gtail, (q.headers (slotIndex q gtail)).length))

/-- `nabd_consumer_release` (part_006 lines 704-712): unconditional
group-tail increment. -/
def nabd_consumer_release (q : Nabd) (g : Fin 16) : Int × Nabd :=
  (NABD_OK, { q with groups := updG q.groups g { q.groups g with tail := (q.groups g).tail + 1 } })

/-! ## Opening / creating a queue (part_006 lines 79-237, create path) -/

/-- `nabd_is_power_of_2` (include/nabd/internal.h). -/
def nabd_is_power_of_2 (n : Nat) : Bool := n != 0 && (n &&& (n - 1)) == 0

/-- `nabd_next_power_of_2` (include/nabd/internal.h), on u64. -/
def nabd_next_power_of_2 (n0 : Nat) : Nat :=
  let n := (n0 + U64 - 1) % U64
  let n := n ||| (n >>> 1)
  let n := n ||| (n >>> 2)
  let n := n ||| (n >>> 4)
  let n := n ||| (n >>> 8)
  let n := n ||| (n >>> 16)
  let n := n ||| (n >>> 32)
  (n + 1) % U64

/-- The queue produced by the `is_create` branch of `nabd_open` after the
capacity/slot-size normalization: `ftruncate` zero-fills the region, then the
control block is initialized and `head = tail = 0`.  `calloc` zeroes the
handle, so `reserved = 0` and `multi = NULL`; no code in the repository ever
assigns `q->multi`, and no space beyond `sizeof(nabd_control_t) +
capacity*slot_size` is reserved, so the group table is never created. -/
def mkCreatedQueue (capacity0 slot_size0 : Nat) : Nabd :=
  let capacity1 := if capacity0 = 0 then NABD_DEFAULT_CAPACITY else capacity0
  let capacity := if nabd_is_power_of_2 capacity1 then capacity1
                  else nabd_next_power_of_2 capacity1
  let slot_size1 := if slot_size0 = 0 then NABD_DEFAULT_SLOT_SIZE else slot_size0
  let slot_size := if slot_size1 < HDR_SIZE + 8 then HDR_SIZE + 8 else slot_size1
  { capacity := capacity
    slot_size := slot_size
    mask := capacity - 1
    head := 0
    tail := 0
    headers := fun _ => ⟨0, 0, 0⟩
    payloads := fun _ => List.replicate (slot_size - HDR_SIZE) 0
    reserved := false
    reserve_pos := 0
    multi := false
    groups := fun _ => ⟨0, 0, 0⟩ }

/-- `nabd_open` with `NABD_CREATE` set, fresh region (part_006 lines 79-237):
`EINVAL` unless at least one of `NABD_PRODUCER`/`NABD_CONSUMER` is set. -/
def nabd_open_create (capacity slot_size flags : Nat) : Option Nabd :=
  if flags &&& NABD_PRODUCER = 0 ∧ flags &&& NABD_CONSUMER = 0 then none
  else some (mkCreatedQueue capacity slot_size)

/-! ## Unoptimized core (part_005)

`src/unnamed/part_005` is the plain "Core Implementation" of the same API;
its `struct nabd` lacks the `multi` field and its helpers are the
non-`NABD_INLINE` versions, but every operation performs the same loads,
checks and stores (the part_006 additions are prefetch and branch-prediction
hints, which have no semantic content).  Its operations are embedded
separately below over the same state type so claim C9 can compare them. -/

namespace Base

/-- `get_slot` (part_005 line 66): `index & q->mask` on the u64 index. -/
def slotIndex (q : Nabd) (index : Nat) : Nat := (index % U64) &&& q.mask

/-- `nabd_push` (part_005 lines 285-317). -/
def nabd_push (q : Nabd) (data : List Nat) : Int × Nabd :=
  let max_payload := q.slot_size - HDR_SIZE
  if data.length > max_payload then (NABD_TOOBIG, q)
  else if usub64 q.head q.tail ≥ q.capacity then (NABD_FULL, q)
  else
    let idx := Base.slotIndex q q.head
    let payload := data ++ (q.payloads idx).drop data.length
    let hdr : nabd_slot_header_t := ⟨data.length % U16, 0, q.head % U32⟩
    (NABD_OK, { q with
      head := q.head + 1,
      headers := updFn q.headers idx hdr,
      payloads := updFn q.payloads idx payload })

/-- `nabd_pop` (part_005 lines 322-356). -/
def nabd_pop (q : Nabd) (buflen : Nat) : Int × Nabd × Option (List Nat) :=
  if q.tail % U64 = q.head % U64 then (NABD_EMPTY, q, none)
  else
    let idx := Base.slotIndex q q.tail
    let msg_len := (q.headers idx).length
    if msg_len > buflen then (NABD_TOOBIG, q, none)
    else (NABD_OK, { q with tail := q.tail + 1 }, some ((q.payloads idx).take msg_len))

/-- `nabd_reserve` (part_005 lines 361-383). -/
def nabd_reserve (q : Nabd) (len : Nat) : Int × Nabd :=
  if q.reserved then (NABD_INVALID, q)
  else if len > q.slot_size - HDR_SIZE then (NABD_TOOBIG, q)
  else if usub64 q.head q.tail ≥ q.capacity then (NABD_FULL, q)
  else (NABD_OK, { q with reserved := true, reserve_pos := q.head })

/-- `nabd_commit` (part_005 lines 388-403). -/
def nabd_commit (q : Nabd) (len : Nat) : Int × Nabd :=
  if q.reserved = false then (NABD_INVALID, q)
  else
    let idx := Base.slotIndex q q.reserve_pos
    let hdr : nabd_slot_header_t := ⟨len % U16, 0, q.reserve_pos % U32⟩
    (NABD_OK, { q with
      headers := updFn q.headers idx hdr,
      head := q.reserve_pos + 1,
      reserved := false })

/-- `nabd_peek` (part_005 lines 408-424). -/
def nabd_peek (q : Nabd) : Int × Option (Nat × Nat) :=
  if q.tail % U64 = q.head % U64 then (NABD_EMPTY, none)
  else (NABD_OK, some (Base.slotIndex q q.tail, (q.headers (Base.slotIndex q q.tail)).length))

/-- `nabd_release` (part_005 lines 429-437). -/
def nabd_release (q : Nabd) : Int × Nabd :=
  (NABD_OK, { q with tail := q.tail + 1 })

/-- `nabd_stats` (part_005 lines 442-453). -/
def nabd_stats (q : Nabd) : Int × nabd_stats_t :=
  (NABD_OK, ⟨q.head % U64, q.tail % U64, q.capacity, usub64 q.head q.tail, q.slot_size⟩)

/-- `nabd_empty` (part_005 lines 458-466). -/
def nabd_empty (q : Nabd) : Int :=
  if q.tail % U64 = q.head % U64 then 1 else 0

/-- `nabd_full` (part_005 lines 471-479). -/
def nabd_full (q : Nabd) : Int :=
  if usub64 q.head q.tail ≥ q.capacity then 1 else 0

end Base

/-! ## Diagnostics & recovery (part_006 persistence section, lines 808-929) -/

/-- The control block of a named region as `nabd_diagnose`/`nabd_recover` see
it; fields hold the raw u64 cell values.  `none` models a name for which
`shm_open` fails with `ENOENT`. -/
structure nabd_control_t where
  magic : Nat
  version : Nat
  capacity : Nat
  slot_size : Nat
  head : Nat
  tail : Nat
deriving Repr, DecidableEq

/-- `nabd_state_t` (include/nabd/persistence.h). -/
inductive nabd_state_t where
  | state_ok | state_empty | state_corrupted | state_stale | state_incomplete | state_version_err
deriving Repr, DecidableEq

/-- `nabd_diagnostic_t` (include/nabd/persistence.h). -/
structure nabd_diagnostic_t where
  state : nabd_state_t
  head : Nat
  tail : Nat
  pending : Nat
  magic_ok : Bool
  version_ok : Bool
  capacity : Nat
  slot_size : Nat
deriving Repr, DecidableEq

/-- `nabd_diagnose` (part_006 persistence lines 808-873): return code plus
the diagnostic it fills in (the struct is `memset` to zero first, and
`state` is pre-set to `CORRUPTED`). -/
def nabd_diagnose (r : Option nabd_control_t) : Int × nabd_diagnostic_t :=
  let d0 : nabd_diagnostic_t :=
    ⟨nabd_state_t.state_corrupted, 0, 0, 0, false, false, 0, 0⟩
  match r with
  | none => (NABD_NOTFOUND, { d0 with state := nabd_state_t.state_incomplete })
  | some c =>
    if c.magic ≠ NABD_MAGIC then
      (NABD_OK, { d0 with magic_ok := false, state := nabd_state_t.state_corrupted })
    else if c.version ≠ NABD_EXPECTED_VERSION then
      (NABD_OK, { d0 with magic_ok := true, version_ok := false,
                          state := nabd_state_t.state_version_err })
    else
      let pending := if c.head ≥ c.tail then c.head - c.tail else 0
      let st := if pending > c.capacity then nabd_state_t.state_corrupted
                else if pending = 0 then nabd_state_t.state_empty
                else nabd_state_t.state_ok
      (NABD_OK, ⟨st, c.head, c.tail, pending, true, true, c.capacity, c.slot_size⟩)

/-- `nabd_recover` (part_006 persistence lines 878-929). Second component is
the region after the call (`none` = unlinked). -/
def nabd_recover (r : Option nabd_control_t) (force : Bool) : Int × Option nabd_control_t :=
  let dr := nabd_diagnose r
  if dr.1 ≠ NABD_OK then (dr.1, r)
  else if dr.2.state = nabd_state_t.state_ok ∨ dr.2.state = nabd_state_t.state_empty then
    (NABD_OK, r)
  else if dr.2.state = nabd_state_t.state_corrupted ∧ force = false then
    (NABD_CORRUPTED, r)
  else if dr.2.state = nabd_state_t.state_incomplete then (NABD_OK, none)
  else if force then
    match r with
    | none => (NABD_SYSERR, r)
    | some c => (NABD_OK, some { c with tail := c.head })
  else (NABD_OK, r)

/-! ## Checkpoints (part_006 persistence lines 796-803, 934-989) -/

def NABD_CHECKPOINT_MAGIC : Nat := 0x434B5054414244

/-- `nabd_checkpoint_t` (include/nabd/persistence.h): `{u64 magic; u64
timestamp; u32 group_id; u32 reserved (padding); u64 tail; u64 checksum}`. -/
structure nabd_checkpoint_t where
  magic : Nat
  timestamp : Nat
  group_id : Nat
  reserved : Nat
  tail : Nat
  checksum : Nat
deriving Repr, DecidableEq

/-- The u64 rotate-left-by-13 of `compute_checksum`:
`(sum << 13) | (sum >> 51)` on u64. -/
def rotl13 (x : Nat) : Nat := ((x <<< 13) % U64) ||| (x >>> 51)

/-- `compute_checksum` (part_006 persistence lines 796-803). -/
def compute_checksum (c : nabd_checkpoint_t) : Nat :=
  rotl13 (((c.magic ^^^ c.timestamp) ^^^ c.group_id) ^^^ c.tail)

/-- `nabd_checkpoint_save` (part_006 persistence lines 934-956): the
checkpoint record written to the file (struct `memset` to zero, then all
fields but the padding filled; `timestamp` is whatever `get_time_ns`
returned). -/
def nabd_checkpoint_save (group_id tail timestamp : Nat) : nabd_checkpoint_t :=
  let c0 : nabd_checkpoint_t := ⟨NABD_CHECKPOINT_MAGIC, timestamp, group_id, 0, tail, 0⟩
  { c0 with checksum := compute_checksum c0 }

/-- `nabd_checkpoint_load` (part_006 persistence lines 961-989): `none`
models a missing file; on a present file the record is read into `*ckpt`
and then validated. -/
def nabd_checkpoint_load (file : Option nabd_checkpoint_t) : Int × Option nabd_checkpoint_t :=
  match file with
  | none => (NABD_NOTFOUND, none)
  | some c =>
    if c.magic ≠ NABD_CHECKPOINT_MAGIC then (NABD_CORRUPTED, some c)
    else if c.checksum ≠ compute_checksum c then (NABD_CORRUPTED, some c)
    else (NABD_OK, some c)

/-- The fields of a checkpoint file outside the 4-byte padding. -/
inductive CkptField where
  | magic | timestamp | group_id | tail | checksum
deriving Repr, DecidableEq

/-- Bit width of each non-padding checkpoint field. -/
def CkptField.width : CkptField → Nat
  | .group_id => 32
  | _ => 64

/-- Flip bit `i` of field `f` of a checkpoint file. -/
def flipBit (f : CkptField) (i : Nat) (c : nabd_checkpoint_t) : nabd_checkpoint_t :=
  match f with
  | .magic => { c with magic := c.magic ^^^ 2 ^ i }
  | .timestamp => { c with timestamp := c.timestamp ^^^ 2 ^ i }
  | .group_id => { c with group_id := c.group_id ^^^ 2 ^ i }
  | .tail => { c with tail := c.tail ^^^ 2 ^ i }
  | .checksum => { c with checksum := c.checksum ^^^ 2 ^ i }

/-! ## Operation sequences -/

/-- A single SPSC data-plane call (claim C1). -/
inductive SpscOp where
  | push : List Nat → SpscOp
  | pop : Nat → SpscOp
deriving Repr, DecidableEq

/-- Run a sequence of push/pop calls, accumulating the payloads of the
successful pushes and the bytes returned by the successful pops. -/
def runOps : Nabd → List (List Nat) → List (List Nat) → List SpscOp →
    Nabd × List (List Nat) × List (List Nat)
  | q, pushed, popped, [] => (q, pushed, popped)
  | q, pushed, popped, SpscOp.push d :: rest =>
    let r := nabd_push q d
    runOps r.2 (if r.1 = NABD_OK then pushed ++ [d] else pushed) popped rest
  | q, pushed, popped, SpscOp.pop n :: rest =>
    let r := nabd_pop q n
    match r.2.2 with
    | some m => runOps r.2.1 pushed (popped ++ [m]) rest
    | none => runOps r.2.1 pushed popped rest

/-- One call of the public surface (claim C2). -/
inductive SurfOp where
  | push : List Nat → SurfOp
  | pop : Nat → SurfOp
  | reserve : Nat → SurfOp
  | commit : Nat → SurfOp
  | peek : SurfOp
  | release : SurfOp
  | ccreate : Nat → SurfOp
  | cpop : Fin 16 → Nat → SurfOp
  | cpeek : Fin 16 → SurfOp
  | crelease : Fin 16 → SurfOp
deriving DecidableEq

/-- The state transition of one public-surface call (`nabd_peek` and
`nabd_consumer_peek` do not modify the state; a failed
`nabd_consumer_create` leaves it unchanged). -/
def surfStep (q : Nabd) : SurfOp → Nabd
  | SurfOp.push d => (nabd_push q d).2
  | SurfOp.pop n => (nabd_pop q n).2.1
  | SurfOp.reserve len => (nabd_reserve q len).2
  | SurfOp.commit len => (nabd_commit q len).2
  | SurfOp.peek => q
  | SurfOp.release => (nabd_release q).2
  | SurfOp.ccreate gid =>
    match nabd_consumer_create q gid with
    | some r => r.1
    | none => q
  | SurfOp.cpop g n => (nabd_consumer_pop q g n).2.1
  | SurfOp.cpeek _ => q
  | SurfOp.crelease g => (nabd_consumer_release q g).2

/-! ## Arithmetic helper lemmas -/

theorem U64_eq : U64 = 18446744073709551616 := by norm_num [U64]

theorem U16_eq : U16 = 65536 := by norm_num [U16]

/-- On counters with a sub-2^64 difference the machine's u64 subtraction is
the exact difference. -/
theorem usub64_eq_sub {h t : Nat} (hle : t ≤ h) (hlt : h - t < U64) :
    usub64 h t = h - t := by
  simp only [usub64, U64_eq] at *
  omega

/-- On counters with a sub-2^64 difference the machine's u64 equality test is
exact. -/
theorem umod_eq_iff {t h : Nat} (hle : t ≤ h) (hlt : h - t < U64) :
    t % U64 = h % U64 ↔ t = h := by
  simp only [U64_eq] at *
  omega

/-- A strict u64 inequality between cell values forces distinct counters. -/
theorem umod_lt_ne {t h : Nat} (hlt : t % U64 < h % U64) : t ≠ h := by
  intro e
  rw [e] at hlt
  exact Nat.lt_irrefl _ hlt

/-- `index & (capacity - 1)` on the u64 cell value is `index % capacity` for
a power-of-two capacity dividing 2^64. -/
theorem slotIndex_eq_mod (q : Nabd) (k : Nat) (hk : k ≤ 64)
    (hcap : q.capacity = 2 ^ k) (hmask : q.mask = q.capacity - 1) (i : Nat) :
    slotIndex q i = i % q.capacity := by
  simp only [slotIndex, hmask, hcap]
  rw [Nat.and_pow_two_sub_one_eq_mod]
  exact Nat.mod_mod_of_dvd i (Nat.pow_dvd_pow 2 hk)

theorem Base_slotIndex_eq (q : Nabd) (i : Nat) : Base.slotIndex q i = slotIndex q i := rfl

/-! ## List helper lemmas -/

/-- The message pushed `i`-th (0-based) in a run, out of the accumulated list. -/
def msgAt (P : List (List Nat)) (i : Nat) : List Nat := P.getD i []

theorem msgAt_append_self (P : List (List Nat)) (d : List Nat) :
    msgAt (P ++ [d]) P.length = d := by
  simp [msgAt, List.getD_eq_getElem?_getD, List.getElem?_concat_length]

theorem msgAt_append_lt (P : List (List Nat)) (d : List Nat) {i : Nat}
    (h : i < P.length) : msgAt (P ++ [d]) i = msgAt P i := by
  simp [msgAt, List.getD_eq_getElem?_getD, List.getElem?_append_left h]

theorem take_append_of_le {α : Type} (P Q : List α) {n : Nat} (h : n ≤ P.length) :
    (P ++ Q).take n = P.take n := by
  rw [List.take_append_eq_append_take, Nat.sub_eq_zero_of_le h]
  simp

theorem take_succ_msgAt (P : List (List Nat)) {n : Nat} (h : n < P.length) :
    P.take n ++ [msgAt P n] = P.take (n + 1) := by
  rw [List.take_succ]
  simp [msgAt, List.getD_eq_getElem?_getD, List.getElem?_eq_getElem h]

/-! ## The SPSC FIFO invariant (claim C1) -/

/-- Invariant tying a queue state to the accumulated lists of successfully
pushed (`P`) and successfully popped (`Q`) messages of a run that started
from a freshly created queue with capacity `2^k`: the counters count the
successes, the popped list is a prefix of the pushed list, and every
not-yet-consumed message sits intact in its slot. -/
structure SpscInv (k : Nat) (q : Nabd) (P Q : List (List Nat)) : Prop where
  hcap : q.capacity = 2 ^ k
  hk : k ≤ 63
  hmask : q.mask = q.capacity - 1
  hslot : 16 ≤ q.slot_size
  hhead : q.head = P.length
  htail : q.tail = Q.length
  hpre : Q = P.take Q.length
  hle : q.tail ≤ q.head
  hcapb : q.head - q.tail ≤ q.capacity
  hwin : ∀ i, q.tail ≤ i → i < q.head →
    (q.headers (i % q.capacity)).length = (msgAt P i).length ∧
    (msgAt P i).length ≤ 65535 ∧
    (q.payloads (i % q.capacity)).take (msgAt P i).length = msgAt P i

theorem capacity_lt_U64 {k : Nat} (hk : k ≤ 63) : 2 ^ k < U64 := by
  have h1 : (2 : Nat) ^ k ≤ 2 ^ 63 := Nat.pow_le_pow_right (by norm_num) hk
  have h2 : (2 : Nat) ^ 63 < 2 ^ 64 := by norm_num
  exact lt_of_le_of_lt h1 (lt_of_lt_of_le h2 (le_of_eq rfl))

/-- Distinct logical indices of the live window land in distinct physical
slots. -/
theorem window_mod_ne {c i j t : Nat} (_hc : 0 < c) (hti : t ≤ i) (hij : i < j)
    (hjt : j - t < c) : i % c ≠ j % c := by
  intro hmod
  have hdvd : c ∣ j - i := (Nat.modEq_iff_dvd' (Nat.le_of_lt hij)).mp hmod
  have hpos : 0 < j - i := by omega
  have := Nat.le_of_dvd hpos hdvd
  omega


/-- `nabd_push` preserves the SPSC invariant, extending the pushed list
exactly when it returns `NABD_OK`. -/
theorem spsc_push_inv {k : Nat} {q : Nabd} {P Q : List (List Nat)} {d : List Nat}
    (h : SpscInv k q P Q) (hd : d.length ≤ 65535) :
    SpscInv k (nabd_push q d).2
      (if (nabd_push q d).1 = NABD_OK then P ++ [d] else P) Q := by
  obtain ⟨hcap, hk, hmask, hslot, hhead, htail, hpre, hle, hcapb, hwin⟩ := h
  have hcapU : q.capacity < U64 := by rw [hcap]; exact capacity_lt_U64 hk
  have hdiff : q.head - q.tail < U64 := lt_of_le_of_lt hcapb hcapU
  by_cases h1 : d.length > q.slot_size - HDR_SIZE
  · have e1 : (nabd_push q d).1 = NABD_TOOBIG := by simp [nabd_push, h1]
    have e2 : (nabd_push q d).2 = q := by simp [nabd_push, h1]
    rw [e1, e2, if_neg (by decide : ¬ (NABD_TOOBIG = NABD_OK))]
    exact ⟨hcap, hk, hmask, hslot, hhead, htail, hpre, hle, hcapb, hwin⟩
  · by_cases h2 : usub64 q.head q.tail ≥ q.capacity
    · have e1 : (nabd_push q d).1 = NABD_FULL := by simp [nabd_push, h1, h2]
      have e2 : (nabd_push q d).2 = q := by simp [nabd_push, h1, h2]
      rw [e1, e2, if_neg (by decide : ¬ (NABD_FULL = NABD_OK))]
      exact ⟨hcap, hk, hmask, hslot, hhead, htail, hpre, hle, hcapb, hwin⟩
    · have hnotfull : q.head - q.tail < q.capacity := by
        rw [usub64_eq_sub hle hdiff] at h2
        omega
      have hcpos : 0 < q.capacity := by rw [hcap]; exact pow_pos (by norm_num) k
      have eidx : slotIndex q q.head = q.head % q.capacity :=
        slotIndex_eq_mod q k (by omega) hcap hmask q.head
      have e1 : (nabd_push q d).1 = NABD_OK := by simp [nabd_push, h1, h2]
      have e2 : (nabd_push q d).2 =
          { q with
            head := q.head + 1,
            headers := updFn q.headers (slotIndex q q.head)
              ⟨d.length % U16, 0, q.head % U32⟩,
            payloads := updFn q.payloads (slotIndex q q.head)
              (d ++ (q.payloads (slotIndex q q.head)).drop d.length) } := by
        simp [nabd_push, h1, h2]
      rw [e2, if_pos e1]
      refine ⟨hcap, hk, hmask, hslot, ?_, htail, ?_, ?_, ?_, ?_⟩
      · dsimp only
        simp [hhead]
      · rw [take_append_of_le P [d] (by omega : Q.length ≤ P.length)]
        exact hpre
      · dsimp only
        omega
      · dsimp only
        omega
      · intro i hti hih
        replace hti : q.tail ≤ i := hti
        replace hih : i < q.head + 1 := hih
        dsimp only
        rcases Nat.lt_or_ge i q.head with hlt | hge
        · -- an older live message: its slot is untouched
          have hne : i % q.capacity ≠ q.head % q.capacity :=
            window_mod_ne hcpos hti hlt (by omega)
          have hiP : i < P.length := by omega
          rw [eidx]
          simp only [updFn, if_neg hne, msgAt_append_lt P d hiP]
          exact hwin i hti hlt
        · -- the newly pushed message
          have hieq : i = q.head := by omega
          subst hieq
          rw [eidx, hhead, msgAt_append_self]
          simp only [updFn, eq_self_iff_true, if_true]
          refine ⟨?_, hd, ?_⟩
          · dsimp only
            rw [U16_eq]
            omega
          · exact List.take_left d _

/-- `nabd_pop` preserves the SPSC invariant, extending the popped list by the
returned bytes exactly when it returns a message. -/
theorem spsc_pop_inv {k : Nat} {q : Nabd} {P Q : List (List Nat)} (n : Nat)
    (h : SpscInv k q P Q) :
    SpscInv k (nabd_pop q n).2.1 P
      (match (nabd_pop q n).2.2 with
       | some m => Q ++ [m]
       | none => Q) := by
  obtain ⟨hcap, hk, hmask, hslot, hhead, htail, hpre, hle, hcapb, hwin⟩ := h
  by_cases h1 : q.tail % U64 = q.head % U64
  · have e : nabd_pop q n = (NABD_EMPTY, q, none) := by simp [nabd_pop, h1]
    rw [e]
    exact ⟨hcap, hk, hmask, hslot, hhead, htail, hpre, hle, hcapb, hwin⟩
  · have hcapU : q.capacity < U64 := by rw [hcap]; exact capacity_lt_U64 hk
    have hdiff : q.head - q.tail < U64 := lt_of_le_of_lt hcapb hcapU
    have hne : q.tail ≠ q.head := fun e => h1 ((umod_eq_iff hle hdiff).mpr e)
    have hlt : q.tail < q.head := lt_of_le_of_ne hle hne
    have eidx : slotIndex q q.tail = q.tail % q.capacity :=
      slotIndex_eq_mod q k (by omega) hcap hmask q.tail
    have hw := hwin q.tail (le_refl _) hlt
    by_cases h2 : (q.headers (slotIndex q q.tail)).length > n
    · have e : nabd_pop q n = (NABD_TOOBIG, q, none) := by
        simp only [nabd_pop]
        rw [if_neg h1, if_pos h2]
      rw [e]
      exact ⟨hcap, hk, hmask, hslot, hhead, htail, hpre, hle, hcapb, hwin⟩
    · have e : nabd_pop q n = (NABD_OK, { q with tail := q.tail + 1 },
          some ((q.payloads (slotIndex q q.tail)).take
            ((q.headers (slotIndex q q.tail)).length))) := by
        simp only [nabd_pop]
        rw [if_neg h1, if_neg h2]
      rw [e]
      have hmsg : (q.payloads (slotIndex q q.tail)).take
          ((q.headers (slotIndex q q.tail)).length) = msgAt P q.tail := by
        rw [eidx, hw.1, hw.2.2]
      simp only [hmsg]
      have htP : q.tail < P.length := by omega
      refine ⟨hcap, hk, hmask, hslot, hhead, ?_, ?_, ?_, ?_, ?_⟩
      · dsimp only
        simp [htail]
      · rw [(by simp : (Q ++ [msgAt P q.tail]).length = Q.length + 1)]
        rw [← take_succ_msgAt P (by omega : Q.length < P.length)]
        rw [← hpre, htail]
      · dsimp only
        omega
      · dsimp only
        omega
      · intro i hti hih
        replace hti : q.tail + 1 ≤ i := hti
        replace hih : i < q.head := hih
        dsimp only
        exact hwin i (by omega) hih

/-- Field facts about a freshly created queue with power-of-two capacity. -/
theorem is_power_of_2_pow (k : Nat) : nabd_is_power_of_2 (2 ^ k) = true := by
  have h0 : (2 : Nat) ^ k ≠ 0 := Nat.pos_iff_ne_zero.mp (pow_pos (by norm_num) k)
  simp [nabd_is_power_of_2, h0, Nat.and_pow_two_sub_one_eq_mod]

theorem mkq_capacity (k ss : Nat) : (mkCreatedQueue (2 ^ k) ss).capacity = 2 ^ k := by
  have h0 : (2 : Nat) ^ k ≠ 0 := Nat.pos_iff_ne_zero.mp (pow_pos (by norm_num) k)
  simp [mkCreatedQueue, h0, is_power_of_2_pow]

theorem mkq_mask (k ss : Nat) :
    (mkCreatedQueue (2 ^ k) ss).mask = (mkCreatedQueue (2 ^ k) ss).capacity - 1 := by
  have h0 : (2 : Nat) ^ k ≠ 0 := Nat.pos_iff_ne_zero.mp (pow_pos (by norm_num) k)
  simp [mkCreatedQueue, h0, is_power_of_2_pow]

theorem mkq_slot (c ss : Nat) : 16 ≤ (mkCreatedQueue c ss).slot_size := by
  simp only [mkCreatedQueue, HDR_SIZE]
  split_ifs <;> omega

theorem mkq_head (c ss : Nat) : (mkCreatedQueue c ss).head = 0 := rfl

theorem mkq_tail (c ss : Nat) : (mkCreatedQueue c ss).tail = 0 := rfl

/-- The invariant holds for a freshly created queue and empty histories. -/
theorem spsc_inv_init (k ss : Nat) (hk : k ≤ 63) :
    SpscInv k (mkCreatedQueue (2 ^ k) ss) [] [] := by
  refine ⟨mkq_capacity k ss, hk, mkq_mask k ss, mkq_slot _ ss, ?_, ?_, rfl, ?_, ?_, ?_⟩
  · rw [mkq_head]
    rfl
  · rw [mkq_tail]
    rfl
  · rw [mkq_head, mkq_tail]
  · rw [mkq_head, mkq_tail]
    simp
  · intro i _ hih
    rw [mkq_head] at hih
    omega

/-- The invariant is preserved along any sequence of push/pop calls whose
pushes all carry at most 65535 bytes. -/
theorem runOps_inv {k : Nat} (ops : List SpscOp) :
    ∀ (q : Nabd) (P Q : List (List Nat)),
      SpscInv k q P Q → (∀ d, SpscOp.push d ∈ ops → d.length ≤ 65535) →
      SpscInv k (runOps q P Q ops).1 (runOps q P Q ops).2.1 (runOps q P Q ops).2.2 := by
  induction ops with
  | nil =>
    intro q P Q h _
    simpa [runOps] using h
  | cons op rest ih =>
    intro q P Q h hall
    cases op with
    | push d =>
      have hstep := spsc_push_inv (d := d) h (hall d (by simp))
      simp only [runOps]
      exact ih _ _ _ hstep (fun d' hd' => hall d' (by simp [hd']))
    | pop n =>
      have hstep := spsc_pop_inv n h
      simp only [runOps]
      cases e : (nabd_pop q n).2.2 with
      | none =>
        rw [e] at hstep
        exact ih _ _ _ hstep (fun d' hd' => hall d' (by simp [hd']))
      | some m =>
        rw [e] at hstep
        exact ih _ _ _ hstep (fun d' hd' => hall d' (by simp [hd']))

/-- **C1** (amended).  On a freshly created SPSC queue of capacity `2^k`, for
any sequence of `nabd_push`/`nabd_pop` calls in which every pushed message
has length at most 65535 (the slot header's `length` field is a u16, so a
longer accepted message — possible whenever `slot_size - 8 > 65535` — is
truncated), the successful pops return, in order, exactly the payloads of the
successful pushes: the popped list is a prefix of the pushed list, so the
`N`-th successful pop returns the bytes of the `N`-th successful push, with
no message dropped, duplicated, or reordered. -/
theorem c1_spsc_fifo (k ss flags : Nat) (hk : k ≤ 63)
    (hf : ¬ (flags &&& NABD_PRODUCER = 0 ∧ flags &&& NABD_CONSUMER = 0))
    (ops : List SpscOp)
    (hlen : ∀ d, SpscOp.push d ∈ ops → d.length ≤ 65535) :
    nabd_open_create (2 ^ k) ss flags = some (mkCreatedQueue (2 ^ k) ss) ∧
    (runOps (mkCreatedQueue (2 ^ k) ss) [] [] ops).2.2 =
      (runOps (mkCreatedQueue (2 ^ k) ss) [] [] ops).2.1.take
        (runOps (mkCreatedQueue (2 ^ k) ss) [] [] ops).2.2.length := by
  constructor
  · simp [nabd_open_create, hf]
  · exact (runOps_inv ops _ [] [] (spsc_inv_init k ss hk) hlen).hpre

theorem c1_spsc_fifo_witness :
    nabd_open_create (2 ^ 1) 64 3 = some (mkCreatedQueue (2 ^ 1) 64) ∧
    (runOps (mkCreatedQueue (2 ^ 1) 64) [] []
        [SpscOp.push [5], SpscOp.push [6, 7], SpscOp.pop 8, SpscOp.pop 8]).2.2 =
      (runOps (mkCreatedQueue (2 ^ 1) 64) [] []
        [SpscOp.push [5], SpscOp.push [6, 7], SpscOp.pop 8, SpscOp.pop 8]).2.1.take
        (runOps (mkCreatedQueue (2 ^ 1) 64) [] []
          [SpscOp.push [5], SpscOp.push [6, 7], SpscOp.pop 8, SpscOp.pop 8]).2.2.length :=
  c1_spsc_fifo 1 64 3 (by norm_num) (by decide) _ (by
    intro d hd
    simp only [List.mem_cons, List.not_mem_nil, or_false] at hd
    rcases hd with h | h | h | h <;> simp_all)

/-- Counterexample geometry for C1/C5: slot_size 65552, so the maximum
payload `slot_size - 8 = 65544` exceeds the u16 range of the header's
`length` field. -/
def cxQ0 : Nabd := mkCreatedQueue 2 65552

/-- A 65536-byte message: accepted by `nabd_push` (65536 ≤ 65544), but
`hdr->length = (uint16_t)65536 = 0`. -/
def cxData : List Nat := List.replicate 65536 1

/-- The queue state after pushing `cxData` into `cxQ0`: the slot header
records length `65536 % 2^16 = 0`. -/
def cxQ1 : Nabd :=
  { cxQ0 with
    head := 1,
    headers := updFn cxQ0.headers 0 ⟨0, 0, 0⟩,
    payloads := updFn cxQ0.payloads 0 (cxData ++ (cxQ0.payloads 0).drop 65536) }

theorem cx_push_eq : nabd_push cxQ0 cxData = (NABD_OK, cxQ1) := by
  have hlen : cxData.length = 65536 := List.length_replicate 65536 1
  have hss : cxQ0.slot_size = 65552 := rfl
  have hh0 : cxQ0.head = 0 := rfl
  have hidx : slotIndex cxQ0 cxQ0.head = 0 := by decide
  have hcond1 : ¬ (cxData.length > cxQ0.slot_size - HDR_SIZE) := by
    rw [hlen, hss]
    norm_num [HDR_SIZE]
  have hcond2 : ¬ (usub64 cxQ0.head cxQ0.tail ≥ cxQ0.capacity) := by decide
  unfold nabd_push
  rw [if_neg hcond1, if_neg hcond2, hidx, hlen, hh0]
  norm_num [cxQ1, U16, U32]

/-- **C1 counterexample.**  On a freshly created queue with capacity 2 and
slot_size 65552, pushing a 65536-byte message succeeds, and the very first
(0th) successful pop succeeds but returns the empty byte string instead of
the 65536 pushed bytes — the claim's "each successful pop returns exactly
the bytes of the Nth successful push" fails at this input. -/
theorem c1_counterexample :
    (nabd_push cxQ0 cxData).1 = NABD_OK ∧
    (nabd_pop (nabd_push cxQ0 cxData).2 70000).1 = NABD_OK ∧
    (nabd_pop (nabd_push cxQ0 cxData).2 70000).2.2 = some [] ∧
    ([] : List Nat) ≠ cxData := by
  refine ⟨by rw [cx_push_eq], ?_, ?_, ?_⟩
  · rw [cx_push_eq]
    decide
  · rw [cx_push_eq]
    decide
  · intro h
    have hlen : cxData.length = 65536 := List.length_replicate 65536 1
    have h2 := congrArg List.length h
    rw [List.length_nil, hlen] at h2
    exact absurd h2 (by norm_num)

/-! ## The public-surface invariant (claim C2) -/

/-- The control-block invariant of the claim: `head ≥ tail`,
`head − tail ≤ capacity`, and `head ≥ group.tail` for every active group. -/
def QInv (q : Nabd) : Prop :=
  q.tail ≤ q.head ∧ q.head - q.tail ≤ q.capacity ∧
  ∀ g : Fin 16, (q.groups g).active ≠ 0 → (q.groups g).tail ≤ q.head

/-- Geometry well-formedness carried by every queue created through
`nabd_open` (capacity is a nonzero power of two that fits a u64). -/
def QWF (q : Nabd) : Prop := 0 < q.capacity ∧ q.capacity ≤ 2 ^ 63

/-- The usage precondition under which the invariant is preserved:
`nabd_release`/`nabd_consumer_release` only after a successful peek (queue
non-empty for that consumer), and `nabd_commit` only while the outstanding
reservation is still current (no intervening push moved `head`; the
reservation was taken by a successful `nabd_reserve`, hence below capacity). -/
def Guard (q : Nabd) : SurfOp → Prop
  | SurfOp.release => q.tail < q.head
  | SurfOp.crelease g => (q.groups g).tail < q.head
  | SurfOp.commit _ =>
    q.reserved = true → (q.reserve_pos = q.head ∧ q.head - q.tail < q.capacity)
  | _ => True

theorem consumer_create_shape (q : Nabd) (gid : Nat) (r : Nabd × Fin 16 × Nat)
    (h : nabd_consumer_create q gid = some r) :
    ∃ i a, r.1 = { q with groups := updG q.groups i ⟨q.head, 1, a⟩ } := by
  unfold nabd_consumer_create at h
  by_cases hm : q.multi = false
  · rw [if_pos hm] at h
    exact absurd h (by simp)
  · rw [if_neg hm] at h
    cases hf : findFreeGroup q.groups with
    | none =>
      rw [hf] at h
      exact absurd h (by simp)
    | some i =>
      rw [hf] at h
      refine ⟨i, if gid ≠ 0 then gid else i.val + 1, ?_⟩
      have := (Option.some.injEq _ _).mp h
      rw [← this]

/-- **C2** (amended).  Every public-surface operation — push, pop, reserve,
commit, peek, release and the consumer-group variants — preserves the
invariant `head ≥ tail ∧ head − tail ≤ capacity ∧ head ≥ group.tail for
every active group` (hence it holds after every operation starting from an
initially empty queue, where it holds trivially), **provided**
`nabd_release`/`nabd_consumer_release` are invoked only on a non-empty queue
(they increment the tail unconditionally, so on an empty queue they break
`head ≥ tail` — see the counterexample) and `nabd_commit` only while its
reservation is still current.  In particular `head − tail ≤ capacity` holds
after every push. -/
theorem c2_invariant_preserved (q : Nabd) (op : SurfOp)
    (hwf : QWF q) (hinv : QInv q) (hg : Guard q op) : QInv (surfStep q op) := by
  obtain ⟨hcpos, hcap63⟩ := hwf
  obtain ⟨hle, hcb, hgr⟩ := hinv
  have hcapU : q.capacity < U64 := lt_of_le_of_lt hcap63 (by norm_num [U64])
  cases op with
  | push d =>
    show QInv (nabd_push q d).2
    by_cases h1 : d.length > q.slot_size - HDR_SIZE
    · simp only [nabd_push, if_pos h1]
      exact ⟨hle, hcb, hgr⟩
    · by_cases h2 : usub64 q.head q.tail ≥ q.capacity
      · simp only [nabd_push, if_neg h1, if_pos h2]
        exact ⟨hle, hcb, hgr⟩
      · have hnf : q.head - q.tail < q.capacity := by
          rw [usub64_eq_sub hle (by omega)] at h2
          omega
        simp only [nabd_push, if_neg h1, if_neg h2]
        refine ⟨?_, ?_, ?_⟩
        · dsimp only
          omega
        · dsimp only
          omega
        · intro g hact
          have := hgr g hact
          dsimp only
          omega
  | pop n =>
    show QInv (nabd_pop q n).2.1
    by_cases h1 : q.tail % U64 = q.head % U64
    · simp only [nabd_pop, if_pos h1]
      exact ⟨hle, hcb, hgr⟩
    · have hlt : q.tail < q.head := by
        have hne : q.tail ≠ q.head := fun e => h1 ((umod_eq_iff hle (by omega)).mpr e)
        omega
      by_cases h2 : (q.headers (slotIndex q q.tail)).length > n
      · simp only [nabd_pop, if_neg h1, if_pos h2]
        exact ⟨hle, hcb, hgr⟩
      · simp only [nabd_pop, if_neg h1, if_neg h2]
        refine ⟨?_, ?_, ?_⟩
        · dsimp only
          omega
        · dsimp only
          omega
        · intro g hact
          have := hgr g hact
          dsimp only
          omega
  | reserve len =>
    show QInv (nabd_reserve q len).2
    by_cases h0 : q.reserved = true
    · simp only [nabd_reserve, if_pos h0]
      exact ⟨hle, hcb, hgr⟩
    · by_cases h1 : len > q.slot_size - HDR_SIZE
      · simp only [nabd_reserve, if_neg h0, if_pos h1]
        exact ⟨hle, hcb, hgr⟩
      · by_cases h2 : usub64 q.head q.tail ≥ q.capacity
        · simp only [nabd_reserve, if_neg h0, if_neg h1, if_pos h2]
          exact ⟨hle, hcb, hgr⟩
        · simp only [nabd_reserve, if_neg h0, if_neg h1, if_neg h2]
          exact ⟨hle, hcb, fun g hact => hgr g hact⟩
  | commit len =>
    show QInv (nabd_commit q len).2
    by_cases h0 : q.reserved = false
    · simp only [nabd_commit, if_pos h0]
      exact ⟨hle, hcb, hgr⟩
    · have hr : q.reserved = true := by
        revert h0
        cases q.reserved <;> simp
      obtain ⟨hpos, hnf⟩ := hg hr
      simp only [nabd_commit, if_neg h0]
      refine ⟨?_, ?_, ?_⟩
      · dsimp only
        omega
      · dsimp only
        omega
      · intro g hact
        have := hgr g hact
        dsimp only
        omega
  | peek => exact ⟨hle, hcb, hgr⟩
  | release =>
    have hg' : q.tail < q.head := hg
    show QInv (nabd_release q).2
    simp only [nabd_release]
    refine ⟨?_, ?_, ?_⟩
    · dsimp only
      omega
    · dsimp only
      omega
    · intro g hact
      have := hgr g hact
      dsimp only
      omega
  | ccreate gid =>
    show QInv (surfStep q (SurfOp.ccreate gid))
    simp only [surfStep]
    cases hm : nabd_consumer_create q gid with
    | none => exact ⟨hle, hcb, hgr⟩
    | some r =>
      obtain ⟨i, a, hr⟩ := consumer_create_shape q gid r hm
      show QInv r.1
      rw [hr]
      refine ⟨hle, hcb, ?_⟩
      intro g hact
      dsimp only at hact ⊢
      by_cases he : g = i
      · subst he
        simp only [updG, eq_self_iff_true, if_true]
        exact le_refl _
      · simp only [updG, if_neg he] at hact ⊢
        exact hgr g hact
  | cpop g n =>
    show QInv (nabd_consumer_pop q g n).2.1
    by_cases h1 : (q.groups g).tail % U64 ≥ q.head % U64
    · simp only [nabd_consumer_pop, if_pos h1]
      exact ⟨hle, hcb, hgr⟩
    · by_cases h2 : (q.headers (slotIndex q (q.groups g).tail)).length > n
      · simp only [nabd_consumer_pop, if_neg h1, if_pos h2]
        exact ⟨hle, hcb, hgr⟩
      · simp only [nabd_consumer_pop, if_neg h1, if_neg h2]
        refine ⟨hle, hcb, ?_⟩
        intro g' hact
        dsimp only at hact ⊢
        by_cases he : g' = g
        · subst he
          simp only [updG, eq_self_iff_true, if_true] at hact ⊢
          have hanne : (q.groups g').active ≠ 0 := hact
          have hta : (q.groups g').tail ≤ q.head := hgr g' hanne
          have hne2 : (q.groups g').tail ≠ q.head :=
            umod_lt_ne (Nat.lt_of_not_le h1)
          omega
        · simp only [updG, if_neg he] at hact ⊢
          exact hgr g' hact
  | cpeek g => exact ⟨hle, hcb, hgr⟩
  | crelease g =>
    have hg' : (q.groups g).tail < q.head := hg
    show QInv (nabd_consumer_release q g).2
    simp only [nabd_consumer_release]
    refine ⟨hle, hcb, ?_⟩
    intro g' hact
    dsimp only at hact ⊢
    by_cases he : g' = g
    · subst he
      simp only [updG, eq_self_iff_true, if_true]
      omega
    · simp only [updG, if_neg he] at hact ⊢
      exact hgr g' hact

instance (q : Nabd) : Decidable (QWF q) := by
  unfold QWF
  infer_instance

instance (q : Nabd) : Decidable (QInv q) := by
  unfold QInv
  infer_instance

instance (q : Nabd) (op : SurfOp) : Decidable (Guard q op) := by
  cases op <;> (unfold Guard; infer_instance)

theorem c2_invariant_preserved_witness :
    QInv (surfStep (mkCreatedQueue 4 64) (SurfOp.push [1, 2])) :=
  c2_invariant_preserved (mkCreatedQueue 4 64) (SurfOp.push [1, 2])
    (by decide) (by decide) (by decide)

/-- **C2 counterexample.**  On a freshly created (empty) queue,
`nabd_release` returns `NABD_OK` and unconditionally increments the tail,
leaving `tail = 1 > head = 0`: `head ≥ tail` does not survive a release on
an empty queue. -/
theorem c2_counterexample :
    (nabd_release (mkCreatedQueue 4 64)).1 = NABD_OK ∧
    (nabd_release (mkCreatedQueue 4 64)).2.tail = 1 ∧
    (nabd_release (mkCreatedQueue 4 64)).2.head = 0 ∧
    ¬ ((nabd_release (mkCreatedQueue 4 64)).2.tail ≤
        (nabd_release (mkCreatedQueue 4 64)).2.head) := by
  decide

/-! ## Diagnose classification (claim C7) and forced recovery (claim C3) -/

/-- **C7.**  `nabd_diagnose` returns `NABD_NOTFOUND` when the region does
not exist; otherwise it returns `NABD_OK` and, with
`pending = head - tail` clamped to 0 when `head < tail`, classifies the
region as `STATE_CORRUPTED` when the magic is wrong, `STATE_VERSION_ERR`
when the magic is right but the version differs from the expected version,
`STATE_CORRUPTED` when `pending > capacity`, `STATE_EMPTY` when
`pending = 0`, and `STATE_OK` otherwise. -/
theorem c7_diagnose_classification (r : Option nabd_control_t) :
    (r = none → (nabd_diagnose r).1 = NABD_NOTFOUND) ∧
    (∀ c, r = some c →
      (nabd_diagnose r).1 = NABD_OK ∧
      (c.magic ≠ NABD_MAGIC →
        (nabd_diagnose r).2.state = nabd_state_t.state_corrupted) ∧
      (c.magic = NABD_MAGIC → c.version ≠ NABD_EXPECTED_VERSION →
        (nabd_diagnose r).2.state = nabd_state_t.state_version_err) ∧
      (c.magic = NABD_MAGIC → c.version = NABD_EXPECTED_VERSION →
        (nabd_diagnose r).2.pending =
          (if c.head ≥ c.tail then c.head - c.tail else 0) ∧
        ((nabd_diagnose r).2.pending > c.capacity →
          (nabd_diagnose r).2.state = nabd_state_t.state_corrupted) ∧
        ((nabd_diagnose r).2.pending ≤ c.capacity →
          (nabd_diagnose r).2.pending = 0 →
          (nabd_diagnose r).2.state = nabd_state_t.state_empty) ∧
        ((nabd_diagnose r).2.pending ≤ c.capacity →
          0 < (nabd_diagnose r).2.pending →
          (nabd_diagnose r).2.state = nabd_state_t.state_ok))) := by
  constructor
  · intro he
    subst he
    rfl
  · intro c he
    subst he
    by_cases hm : c.magic = NABD_MAGIC
    · by_cases hv : c.version = NABD_EXPECTED_VERSION
      · have e : nabd_diagnose (some c) =
            (NABD_OK,
              ⟨(if (if c.head ≥ c.tail then c.head - c.tail else 0) > c.capacity then
                  nabd_state_t.state_corrupted
                else if (if c.head ≥ c.tail then c.head - c.tail else 0) = 0 then
                  nabd_state_t.state_empty
                else nabd_state_t.state_ok),
               c.head, c.tail, (if c.head ≥ c.tail then c.head - c.tail else 0),
               true, true, c.capacity, c.slot_size⟩) := by
          simp [nabd_diagnose, hm, hv]
        rw [e]
        refine ⟨rfl, fun hm' => absurd hm hm', fun _ hv' => absurd hv hv', fun _ _ => ⟨rfl, ?_, ?_, ?_⟩⟩
        · intro hp
          dsimp only at hp ⊢
          rw [if_pos hp]
        · intro hp hz
          dsimp only at hp hz ⊢
          rw [if_neg (by omega), if_pos hz]
        · intro hp hz
          dsimp only at hp hz ⊢
          rw [if_neg (by omega), if_neg (by omega)]
      · have e : (nabd_diagnose (some c)).1 = NABD_OK ∧
            (nabd_diagnose (some c)).2.state = nabd_state_t.state_version_err := by
          constructor <;> simp [nabd_diagnose, hm, hv]
        exact ⟨e.1, fun hm' => absurd hm hm', fun _ _ => e.2,
               fun _ hv' => absurd hv' hv⟩
    · have e : (nabd_diagnose (some c)).1 = NABD_OK ∧
          (nabd_diagnose (some c)).2.state = nabd_state_t.state_corrupted := by
        constructor <;> simp [nabd_diagnose, hm]
      exact ⟨e.1, fun _ => e.2, fun hm' => absurd hm' hm, fun hm' => absurd hm' hm⟩

/-- A healthy region with 2 pending messages, for the C7 witness. -/
def c7Region : nabd_control_t :=
  ⟨NABD_MAGIC, NABD_EXPECTED_VERSION, 4, 64, 3, 1⟩

theorem c7_diagnose_classification_witness :
    (nabd_diagnose (some c7Region)).1 = NABD_OK ∧
    (nabd_diagnose (some c7Region)).2.pending = 2 ∧
    (nabd_diagnose (some c7Region)).2.state = nabd_state_t.state_ok := by
  have h := (c7_diagnose_classification (some c7Region)).2 c7Region rfl
  have h4 := h.2.2.2 (by decide) (by decide)
  refine ⟨h.1, ?_, h4.2.2.2 (by rw [h4.1]; decide) (by rw [h4.1]; decide)⟩
  rw [h4.1]
  decide

/-- **C3** (amended).  When `nabd_diagnose` reports `STATE_OK` with
`pending > 0`, `nabd_recover` with `force = true` is a **no-op**: it returns
`NABD_OK` immediately ("no recovery needed") and leaves the region — in
particular `tail`, `head` and hence `pending` — unchanged, so a subsequent
diagnose reports exactly the same `STATE_OK` and pending count.  The
`tail ← head` reset is reached only for regions whose diagnose state is
`STATE_CORRUPTED` (with force) or `STATE_VERSION_ERR`. -/
theorem c3_recover_ok_noop (r : Option nabd_control_t)
    (h1 : (nabd_diagnose r).1 = NABD_OK)
    (h2 : (nabd_diagnose r).2.state = nabd_state_t.state_ok) :
    nabd_recover r true = (NABD_OK, r) ∧
    nabd_diagnose ((nabd_recover r true).2) = nabd_diagnose r := by
  have e : nabd_recover r true = (NABD_OK, r) := by
    unfold nabd_recover
    rw [if_neg (by rw [h1]; exact fun hne => hne rfl), if_pos (Or.inl h2)]
  exact ⟨e, by rw [e]⟩

/-- The region of spec scenario 5 just before the recover call: healthy,
3 pending messages. -/
def c3Region : Option nabd_control_t :=
  some ⟨NABD_MAGIC, NABD_EXPECTED_VERSION, 4, 64, 3, 0⟩

theorem c3_recover_ok_noop_witness :
    nabd_recover c3Region true = (NABD_OK, c3Region) ∧
    nabd_diagnose ((nabd_recover c3Region true).2) = nabd_diagnose c3Region :=
  c3_recover_ok_noop c3Region (by decide) (by decide)

/-- **C3 counterexample.**  On a region that diagnoses `STATE_OK` with
`pending = 3 > 0`, `nabd_recover(force = true)` does **not** set
`tail ← head`: it returns early with the region unchanged, and the
subsequent diagnose still reports `STATE_OK` with `pending = 3`, not
`STATE_EMPTY` with `pending = 0` as the claim states. -/
theorem c3_counterexample :
    (nabd_diagnose c3Region).2.state = nabd_state_t.state_ok ∧
    (nabd_diagnose c3Region).2.pending = 3 ∧
    nabd_recover c3Region true = (NABD_OK, c3Region) ∧
    (nabd_diagnose ((nabd_recover c3Region true).2)).2.state ≠
      nabd_state_t.state_empty ∧
    (nabd_diagnose ((nabd_recover c3Region true).2)).2.pending ≠ 0 := by
  decide

/-! ## The missing multi-consumer table (claim C4) -/

/-- **C4** (the code does not do this).  The create path of `nabd_open`
computes `total_size = sizeof(nabd_control_t) + capacity * slot_size` with
no room for a group table, initializes only the control block, and leaves
the handle's `multi` pointer NULL (`calloc`; no statement in the repository
ever assigns `q->multi`).  Consequently `nabd_consumer_create` on a freshly
created queue — with any flags and any requested group id — always fails
with `EINVAL` (`NULL` return, modelled as `none`): no group table with
magic, `num_groups = 16` and 16 free slots exists anywhere. -/
theorem c4_no_multi_table (capacity slot_size gid : Nat) :
    (mkCreatedQueue capacity slot_size).multi = false ∧
    nabd_consumer_create (mkCreatedQueue capacity slot_size) gid = none := by
  constructor
  · rfl
  · have hm : (mkCreatedQueue capacity slot_size).multi = false := rfl
    unfold nabd_consumer_create
    rw [if_pos hm]

/-! ## The push contract (claim C5) -/

/-- **C5** (amended).  For every well-formed queue state and payload
`(data, len)` with `len = data.length`: `nabd_push` returns `NABD_TOOBIG`
iff `len > slot_size - 8` (so a push of exactly `slot_size - 8` bytes
succeeds when space is available and a push of `slot_size - 7` bytes returns
`NABD_TOOBIG`); otherwise it returns `NABD_FULL` iff `head - tail ≥
capacity`; and otherwise it succeeds, writing the header fields
`length = len mod 2^16` (the field is a u16 — for `len ≤ 65535` this is
`len`), `flags = 0`, `sequence = (u32)head`, and incrementing `head` by
exactly 1 while leaving `tail` unchanged. -/
theorem c5_push_contract (q : Nabd) (data : List Nat) (k : Nat)
    (hcap : q.capacity = 2 ^ k) (hk : k ≤ 63) (hmask : q.mask = q.capacity - 1)
    (hle : q.tail ≤ q.head) (hcb : q.head - q.tail ≤ q.capacity) :
    ((nabd_push q data).1 = NABD_TOOBIG ↔ data.length > q.slot_size - HDR_SIZE) ∧
    (data.length ≤ q.slot_size - HDR_SIZE →
      (((nabd_push q data).1 = NABD_FULL ↔ q.head - q.tail ≥ q.capacity) ∧
       (q.head - q.tail < q.capacity →
         (nabd_push q data).1 = NABD_OK ∧
         (nabd_push q data).2.head = q.head + 1 ∧
         (nabd_push q data).2.tail = q.tail ∧
         (nabd_push q data).2.headers (q.head % q.capacity) =
           ⟨data.length % U16, 0, q.head % U32⟩ ∧
         (nabd_push q data).2.payloads (q.head % q.capacity) =
           data ++ (q.payloads (q.head % q.capacity)).drop data.length))) := by
  have hcapU : q.capacity < U64 := by
    rw [hcap]
    exact capacity_lt_U64 hk
  have hdiff : q.head - q.tail < U64 := by omega
  have husub : usub64 q.head q.tail = q.head - q.tail := usub64_eq_sub hle hdiff
  have eidx : slotIndex q q.head = q.head % q.capacity :=
    slotIndex_eq_mod q k (by omega) hcap hmask q.head
  by_cases h1 : data.length > q.slot_size - HDR_SIZE
  · have e : nabd_push q data = (NABD_TOOBIG, q) := by simp [nabd_push, h1]
    rw [e]
    exact ⟨⟨fun _ => h1, fun _ => rfl⟩, fun hc => absurd h1 (by omega)⟩
  · by_cases h2 : usub64 q.head q.tail ≥ q.capacity
    · have e : nabd_push q data = (NABD_FULL, q) := by simp [nabd_push, h1, h2]
      rw [e]
      refine ⟨⟨fun hx => absurd hx (by decide : ¬ (NABD_FULL = NABD_TOOBIG)),
               fun hx => absurd hx h1⟩, fun _ => ⟨?_, ?_⟩⟩
      · exact ⟨fun _ => by omega, fun _ => rfl⟩
      · intro hlt
        rw [husub] at h2
        omega
    · have e1 : (nabd_push q data).1 = NABD_OK := by simp [nabd_push, h1, h2]
      have e2 : (nabd_push q data).2 =
          { q with
            head := q.head + 1,
            headers := updFn q.headers (slotIndex q q.head)
              ⟨data.length % U16, 0, q.head % U32⟩,
            payloads := updFn q.payloads (slotIndex q q.head)
              (data ++ (q.payloads (slotIndex q q.head)).drop data.length) } := by
        simp [nabd_push, h1, h2]
      rw [husub] at h2
      refine ⟨⟨fun hx => absurd (e1 ▸ hx) (by decide), fun hx => absurd hx h1⟩,
              fun _ => ⟨⟨fun hx => absurd (e1 ▸ hx) (by decide), fun hx => by omega⟩, fun _ => ?_⟩⟩
      refine ⟨e1, ?_, ?_, ?_, ?_⟩
      · rw [e2]
      · rw [e2]
      · rw [e2]
        dsimp only
        rw [eidx]
        simp only [updFn, eq_self_iff_true, if_true]
      · rw [e2]
        dsimp only
        rw [eidx]
        simp only [updFn, eq_self_iff_true, if_true]

theorem c5_push_contract_witness :
    ((nabd_push (mkCreatedQueue 2 64) [1, 2, 3]).1 = NABD_TOOBIG ↔
      ([1, 2, 3] : List Nat).length > (mkCreatedQueue 2 64).slot_size - HDR_SIZE) ∧
    (([1, 2, 3] : List Nat).length ≤ (mkCreatedQueue 2 64).slot_size - HDR_SIZE →
      (((nabd_push (mkCreatedQueue 2 64) [1, 2, 3]).1 = NABD_FULL ↔
         (mkCreatedQueue 2 64).head - (mkCreatedQueue 2 64).tail ≥
           (mkCreatedQueue 2 64).capacity) ∧
       ((mkCreatedQueue 2 64).head - (mkCreatedQueue 2 64).tail <
           (mkCreatedQueue 2 64).capacity →
         (nabd_push (mkCreatedQueue 2 64) [1, 2, 3]).1 = NABD_OK ∧
         (nabd_push (mkCreatedQueue 2 64) [1, 2, 3]).2.head =
           (mkCreatedQueue 2 64).head + 1 ∧
         (nabd_push (mkCreatedQueue 2 64) [1, 2, 3]).2.tail =
           (mkCreatedQueue 2 64).tail ∧
         (nabd_push (mkCreatedQueue 2 64) [1, 2, 3]).2.headers
             ((mkCreatedQueue 2 64).head % (mkCreatedQueue 2 64).capacity) =
           ⟨([1, 2, 3] : List Nat).length % U16, 0,
            (mkCreatedQueue 2 64).head % U32⟩ ∧
         (nabd_push (mkCreatedQueue 2 64) [1, 2, 3]).2.payloads
             ((mkCreatedQueue 2 64).head % (mkCreatedQueue 2 64).capacity) =
           [1, 2, 3] ++
             ((mkCreatedQueue 2 64).payloads
               ((mkCreatedQueue 2 64).head % (mkCreatedQueue 2 64).capacity)).drop
               ([1, 2, 3] : List Nat).length))) :=
  c5_push_contract (mkCreatedQueue 2 64) [1, 2, 3] 1
    (by decide) (by norm_num) (by decide) (by decide) (by decide)

/-- **C5 counterexample.**  On a queue with `slot_size = 65552`
(`max payload = 65544`), a push of `len = 65536 ≤ 65544` bytes succeeds —
consistent with the TOOBIG/FULL clauses — but the slot header records
`length = 0 ≠ len`: the claim's "writing the header fields length = len"
is false; the code stores `(uint16_t)len = len mod 2^16`. -/
theorem c5_counterexample :
    cxData.length = 65536 ∧
    cxData.length ≤ cxQ0.slot_size - HDR_SIZE ∧
    (nabd_push cxQ0 cxData).1 = NABD_OK ∧
    ((nabd_push cxQ0 cxData).2.headers 0).length = 0 ∧
    ((nabd_push cxQ0 cxData).2.headers 0).length ≠ cxData.length := by
  have hlen : cxData.length = 65536 := List.length_replicate 65536 1
  refine ⟨hlen, ?_, by rw [cx_push_eq], ?_, ?_⟩
  · rw [hlen]
    have hss : cxQ0.slot_size = 65552 := rfl
    rw [hss]
    norm_num [HDR_SIZE]
  · rw [cx_push_eq]
    decide
  · rw [cx_push_eq, hlen]
    decide

/-! ## Reserve/commit versus push (claim C6) -/

/-- **C6** (amended).  For every queue state **with no outstanding
reservation** and every input `(data, len)` with `len = data.length ≤
slot_size - 8`: calling `nabd_reserve(len)`, writing the `len` bytes of
`data` through the returned slot pointer, and calling `nabd_commit(len)`
yields the same return code and the same resulting queue state — `head`,
`tail`, every slot header and every payload byte — as a single
`nabd_push(data, len)`, so consumers observe byte-identical messages.
(With a reservation already outstanding the two differ: reserve fails with
`NABD_INVALID` while push, which never checks the reservation flag,
proceeds — see the counterexample.) -/
theorem c6_reserve_commit_equiv_push (q : Nabd) (data : List Nat)
    (hres : q.reserved = false) (hlen : data.length ≤ q.slot_size - HDR_SIZE) :
    (reserve_write_commit q data).1 = (nabd_push q data).1 ∧
    (reserve_write_commit q data).2.head = (nabd_push q data).2.head ∧
    (reserve_write_commit q data).2.tail = (nabd_push q data).2.tail ∧
    (reserve_write_commit q data).2.headers = (nabd_push q data).2.headers ∧
    (reserve_write_commit q data).2.payloads = (nabd_push q data).2.payloads := by
  have h1 : ¬ (data.length > q.slot_size - HDR_SIZE) := by omega
  have hresT : ¬ (q.reserved = true) := by rw [hres]; simp
  by_cases h2 : usub64 q.head q.tail ≥ q.capacity
  · -- both fail with FULL, leaving the state untouched
    have eres : nabd_reserve q data.length = (NABD_FULL, q) := by
      simp [nabd_reserve, hres, h1, h2]
    have epush : nabd_push q data = (NABD_FULL, q) := by
      simp [nabd_push, h1, h2]
    have erwc : reserve_write_commit q data = (NABD_FULL, q) := by
      unfold reserve_write_commit
      rw [eres]
      norm_num [NABD_FULL, NABD_OK]
    rw [erwc, epush]
    exact ⟨rfl, rfl, rfl, rfl, rfl⟩
  · -- both succeed and build the identical slot
    have eres : nabd_reserve q data.length =
        (NABD_OK, { q with reserved := true, reserve_pos := q.head }) := by
      simp [nabd_reserve, hres, h1, h2]
    have erwc : reserve_write_commit q data =
        nabd_commit
          (writeReservedSlot { q with reserved := true, reserve_pos := q.head } data)
          data.length := by
      unfold reserve_write_commit
      rw [eres]
      norm_num
    have epush : nabd_push q data = (NABD_OK,
        { q with
          head := q.head + 1,
          headers := updFn q.headers (slotIndex q q.head)
            ⟨data.length % U16, 0, q.head % U32⟩,
          payloads := updFn q.payloads (slotIndex q q.head)
            (data ++ (q.payloads (slotIndex q q.head)).drop data.length) }) := by
      simp [nabd_push, h1, h2]
    rw [erwc, epush]
    unfold writeReservedSlot nabd_commit
    dsimp only
    rw [if_neg (by simp)]
    exact ⟨rfl, rfl, rfl, rfl, rfl⟩

theorem c6_reserve_commit_equiv_push_witness :
    (reserve_write_commit (mkCreatedQueue 2 64) [7, 8]).1 =
      (nabd_push (mkCreatedQueue 2 64) [7, 8]).1 ∧
    (reserve_write_commit (mkCreatedQueue 2 64) [7, 8]).2.head =
      (nabd_push (mkCreatedQueue 2 64) [7, 8]).2.head ∧
    (reserve_write_commit (mkCreatedQueue 2 64) [7, 8]).2.tail =
      (nabd_push (mkCreatedQueue 2 64) [7, 8]).2.tail ∧
    (reserve_write_commit (mkCreatedQueue 2 64) [7, 8]).2.headers =
      (nabd_push (mkCreatedQueue 2 64) [7, 8]).2.headers ∧
    (reserve_write_commit (mkCreatedQueue 2 64) [7, 8]).2.payloads =
      (nabd_push (mkCreatedQueue 2 64) [7, 8]).2.payloads :=
  c6_reserve_commit_equiv_push (mkCreatedQueue 2 64) [7, 8] (by decide) (by decide)

/-- A queue with an outstanding reservation (fresh queue after
`nabd_reserve(3)`), on which reserve→write→commit and push disagree. -/
def c6Q : Nabd := (nabd_reserve (mkCreatedQueue 2 64) 3).2

/-- **C6 counterexample.**  On a queue state with an outstanding
reservation, the reserve→write→commit sequence for a 1-byte message fails
with `NABD_INVALID` (the second reserve is rejected) and leaves `head = 0`,
while `nabd_push` of the same bytes — which never checks the reservation
flag — returns `NABD_OK` and advances `head` to 1: the claim's "for every
queue state" fails there. -/
theorem c6_counterexample :
    c6Q.reserved = true ∧
    (reserve_write_commit c6Q [7]).1 = NABD_INVALID ∧
    (nabd_push c6Q [7]).1 = NABD_OK ∧
    (reserve_write_commit c6Q [7]).1 ≠ (nabd_push c6Q [7]).1 ∧
    (reserve_write_commit c6Q [7]).2.head = 0 ∧
    (nabd_push c6Q [7]).2.head = 1 := by
  decide

/-! ## Checkpoint checksum facts (claim C8) -/

/-- Bit `j` of the u64 rotate-left-by-13 is bit `(j + 51) % 64` of the
input. -/
theorem rotl13_testBit (x : Nat) (hx : x < 2 ^ 64) (j : Nat) (hj : j < 64) :
    (rotl13 x).testBit j = x.testBit ((j + 51) % 64) := by
  unfold rotl13
  rw [U64]
  simp only [Nat.testBit_lor, Nat.testBit_mod_two_pow, Nat.testBit_shiftLeft,
    Nat.testBit_shiftRight]
  by_cases hcase : j < 13
  · have h13 : ¬ (13 ≤ j) := by omega
    have hmod : (j + 51) % 64 = j + 51 := Nat.mod_eq_of_lt (by omega)
    simp only [hj, h13, hmod, decide_eq_true_eq]
    simp
    rw [Nat.add_comm 51 j]
  · have h13 : 13 ≤ j := by omega
    have hhi : x.testBit (51 + j) = false :=
      Nat.testBit_lt_two_pow
        (lt_of_lt_of_le hx (Nat.pow_le_pow_right (by norm_num) (by omega)))
    have hmod : (j + 51) % 64 = j - 13 := by omega
    simp only [hj, h13, hhi, hmod]
    simp

/-- Inputs below 2^64 differing in one bit have different rotations. -/
theorem rotl13_ne (x y : Nat) (hx : x < 2 ^ 64) (hy : y < 2 ^ 64)
    (i : Nat) (hi : i < 64) (hbit : x.testBit i ≠ y.testBit i) :
    rotl13 x ≠ rotl13 y := by
  intro he
  apply hbit
  have hj : (i + 13) % 64 < 64 := Nat.mod_lt _ (by norm_num)
  have key : ((i + 13) % 64 + 51) % 64 = i := by omega
  have e1 := rotl13_testBit x hx ((i + 13) % 64) hj
  have e2 := rotl13_testBit y hy ((i + 13) % 64) hj
  rw [key] at e1 e2
  rw [← e1, ← e2, he]

/-- Flipping a bit changes a value. -/
theorem xor_two_pow_ne (a i : Nat) : a ^^^ 2 ^ i ≠ a := by
  intro he
  have h2 : a ^^^ (a ^^^ 2 ^ i) = a ^^^ a := congrArg (fun z => a ^^^ z) he
  rw [← Nat.xor_assoc, Nat.xor_self, Nat.zero_xor] at h2
  exact absurd h2 (pow_ne_zero i (by norm_num))

/-- Flipping a bit changes that bit. -/
theorem testBit_xor_two_pow (a i : Nat) :
    (a ^^^ 2 ^ i).testBit i = !(a.testBit i) := by
  simp [Nat.testBit_xor, Nat.testBit_two_pow_self, Bool.xor_comm]

theorem xor_flip_timestamp (a b c d e : Nat) :
    ((a ^^^ (b ^^^ e)) ^^^ c) ^^^ d = (((a ^^^ b) ^^^ c) ^^^ d) ^^^ e := by
  apply Nat.eq_of_testBit_eq
  intro j
  simp only [Nat.testBit_xor]
  cases a.testBit j <;> cases b.testBit j <;> cases c.testBit j <;>
    cases d.testBit j <;> cases e.testBit j <;> rfl

theorem xor_flip_group (a b c d e : Nat) :
    ((a ^^^ b) ^^^ (c ^^^ e)) ^^^ d = (((a ^^^ b) ^^^ c) ^^^ d) ^^^ e := by
  apply Nat.eq_of_testBit_eq
  intro j
  simp only [Nat.testBit_xor]
  cases a.testBit j <;> cases b.testBit j <;> cases c.testBit j <;>
    cases d.testBit j <;> cases e.testBit j <;> rfl

theorem xor_flip_tail (a b c d e : Nat) :
    ((a ^^^ b) ^^^ c) ^^^ (d ^^^ e) = (((a ^^^ b) ^^^ c) ^^^ d) ^^^ e :=
  (Nat.xor_assoc _ _ _).symm

theorem ckpt_magic_lt : NABD_CHECKPOINT_MAGIC < 2 ^ 64 := by norm_num [NABD_CHECKPOINT_MAGIC]

/-- **C8.**  `nabd_checkpoint_save` followed by `nabd_checkpoint_load` of
the same file returns `NABD_OK` and yields a checkpoint byte-equal to the
one saved, whose checksum is `rotl13(magic ^ timestamp ^ group_id ^ tail)`
— and flipping any single bit of any field outside the 4-byte padding
(magic, timestamp, group_id, tail or checksum) makes `nabd_checkpoint_load`
return `NABD_CORRUPTED`. -/
theorem c8_checkpoint_roundtrip_flip (gid tl ts : Nat)
    (hgid : gid < 2 ^ 32) (hts : ts < 2 ^ 64) (htl : tl < 2 ^ 64) :
    nabd_checkpoint_load (some (nabd_checkpoint_save gid tl ts)) =
      (NABD_OK, some (nabd_checkpoint_save gid tl ts)) ∧
    (nabd_checkpoint_save gid tl ts).checksum =
      rotl13 (((NABD_CHECKPOINT_MAGIC ^^^ ts) ^^^ gid) ^^^ tl) ∧
    (∀ f : CkptField, ∀ i : Nat, i < f.width →
      (nabd_checkpoint_load
        (some (flipBit f i (nabd_checkpoint_save gid tl ts)))).1 =
          NABD_CORRUPTED) := by
  have hgid64 : gid < 2 ^ 64 := lt_of_lt_of_le hgid (by norm_num)
  have hs64 : ((NABD_CHECKPOINT_MAGIC ^^^ ts) ^^^ gid) ^^^ tl < 2 ^ 64 :=
    Nat.xor_lt_two_pow
      (Nat.xor_lt_two_pow (Nat.xor_lt_two_pow ckpt_magic_lt hts) hgid64) htl
  refine ⟨?_, rfl, ?_⟩
  · simp [nabd_checkpoint_load, nabd_checkpoint_save, compute_checksum]
  · intro f i hi
    have hpow64 : ∀ n : Nat, n < 64 → (2 : Nat) ^ n < 2 ^ 64 :=
      fun n hn => Nat.pow_lt_pow_right (by norm_num) hn
    cases f with
    | magic =>
      have hne : NABD_CHECKPOINT_MAGIC ^^^ 2 ^ i ≠ NABD_CHECKPOINT_MAGIC :=
        xor_two_pow_ne _ i
      simp [flipBit, nabd_checkpoint_load, nabd_checkpoint_save, hne]
    | timestamp =>
      have hi64 : i < 64 := hi
      have hflip : ((NABD_CHECKPOINT_MAGIC ^^^ (ts ^^^ 2 ^ i)) ^^^ gid) ^^^ tl =
          (((NABD_CHECKPOINT_MAGIC ^^^ ts) ^^^ gid) ^^^ tl) ^^^ 2 ^ i :=
        xor_flip_timestamp _ _ _ _ _
      have hs64' : ((NABD_CHECKPOINT_MAGIC ^^^ (ts ^^^ 2 ^ i)) ^^^ gid) ^^^ tl < 2 ^ 64 := by
        rw [hflip]
        exact Nat.xor_lt_two_pow hs64 (hpow64 i hi64)
      have hne : rotl13 (((NABD_CHECKPOINT_MAGIC ^^^ ts) ^^^ gid) ^^^ tl) ≠
          rotl13 (((NABD_CHECKPOINT_MAGIC ^^^ (ts ^^^ 2 ^ i)) ^^^ gid) ^^^ tl) := by
        apply rotl13_ne _ _ hs64 hs64' i hi64
        rw [hflip, testBit_xor_two_pow]
        cases (((NABD_CHECKPOINT_MAGIC ^^^ ts) ^^^ gid) ^^^ tl).testBit i <;> simp
      simp [flipBit, nabd_checkpoint_load, nabd_checkpoint_save, compute_checksum, hne]
    | group_id =>
      have hi64 : i < 64 := by
        have : i < 32 := hi
        omega
      have hflip : ((NABD_CHECKPOINT_MAGIC ^^^ ts) ^^^ (gid ^^^ 2 ^ i)) ^^^ tl =
          (((NABD_CHECKPOINT_MAGIC ^^^ ts) ^^^ gid) ^^^ tl) ^^^ 2 ^ i :=
        xor_flip_group _ _ _ _ _
      have hs64' : ((NABD_CHECKPOINT_MAGIC ^^^ ts) ^^^ (gid ^^^ 2 ^ i)) ^^^ tl < 2 ^ 64 := by
        rw [hflip]
        exact Nat.xor_lt_two_pow hs64 (hpow64 i hi64)
      have hne : rotl13 (((NABD_CHECKPOINT_MAGIC ^^^ ts) ^^^ gid) ^^^ tl) ≠
          rotl13 (((NABD_CHECKPOINT_MAGIC ^^^ ts) ^^^ (gid ^^^ 2 ^ i)) ^^^ tl) := by
        apply rotl13_ne _ _ hs64 hs64' i hi64
        rw [hflip, testBit_xor_two_pow]
        cases (((NABD_CHECKPOINT_MAGIC ^^^ ts) ^^^ gid) ^^^ tl).testBit i <;> simp
      simp [flipBit, nabd_checkpoint_load, nabd_checkpoint_save, compute_checksum, hne]
    | tail =>
      have hi64 : i < 64 := hi
      have hflip : ((NABD_CHECKPOINT_MAGIC ^^^ ts) ^^^ gid) ^^^ (tl ^^^ 2 ^ i) =
          (((NABD_CHECKPOINT_MAGIC ^^^ ts) ^^^ gid) ^^^ tl) ^^^ 2 ^ i :=
        xor_flip_tail _ _ _ _ _
      have hs64' : ((NABD_CHECKPOINT_MAGIC ^^^ ts) ^^^ gid) ^^^ (tl ^^^ 2 ^ i) < 2 ^ 64 := by
        rw [hflip]
        exact Nat.xor_lt_two_pow hs64 (hpow64 i hi64)
      have hne : rotl13 (((NABD_CHECKPOINT_MAGIC ^^^ ts) ^^^ gid) ^^^ tl) ≠
          rotl13 (((NABD_CHECKPOINT_MAGIC ^^^ ts) ^^^ gid) ^^^ (tl ^^^ 2 ^ i)) := by
        apply rotl13_ne _ _ hs64 hs64' i hi64
        rw [hflip, testBit_xor_two_pow]
        cases ((((NABD_CHECKPOINT_MAGIC ^^^ ts) ^^^ gid) ^^^ tl)).testBit i <;> simp
      simp [flipBit, nabd_checkpoint_load, nabd_checkpoint_save, compute_checksum, hne]
    | checksum =>
      have hne : rotl13 (((NABD_CHECKPOINT_MAGIC ^^^ ts) ^^^ gid) ^^^ tl) ^^^ 2 ^ i ≠
          rotl13 (((NABD_CHECKPOINT_MAGIC ^^^ ts) ^^^ gid) ^^^ tl) :=
        xor_two_pow_ne _ i
      simp [flipBit, nabd_checkpoint_load, nabd_checkpoint_save, compute_checksum, hne]

theorem c8_checkpoint_roundtrip_flip_witness :
    nabd_checkpoint_load (some (nabd_checkpoint_save 3 40 1000)) =
      (NABD_OK, some (nabd_checkpoint_save 3 40 1000)) ∧
    (nabd_checkpoint_load
      (some (flipBit CkptField.tail 5 (nabd_checkpoint_save 3 40 1000)))).1 =
        NABD_CORRUPTED := by
  have h := c8_checkpoint_roundtrip_flip 3 40 1000
    (by norm_num) (by norm_num) (by norm_num)
  exact ⟨h.1, h.2.2 CkptField.tail 5 (by decide)⟩

/-! ## Equivalence of the two cores (claim C9) -/

/-- **C9.**  For every queue state and every input, each of push, pop,
reserve, commit, peek, release, empty, full and stats of the optimized core
(part_006) returns the same value and produces the same state transition
(head, tail, slot contents, reservation flag — the entire resulting state)
as the corresponding function of the unoptimized core (part_005): the two
sources differ only in prefetch and branch-prediction hints, which have no
semantic content, so their embeddings are definitionally equal. -/
theorem c9_cores_equivalent :
    (∀ q data, Base.nabd_push q data = nabd_push q data) ∧
    (∀ q n, Base.nabd_pop q n = nabd_pop q n) ∧
    (∀ q len, Base.nabd_reserve q len = nabd_reserve q len) ∧
    (∀ q len, Base.nabd_commit q len = nabd_commit q len) ∧
    (∀ q, Base.nabd_peek q = nabd_peek q) ∧
    (∀ q, Base.nabd_release q = nabd_release q) ∧
    (∀ q, Base.nabd_empty q = nabd_empty q) ∧
    (∀ q, Base.nabd_full q = nabd_full q) ∧
    (∀ q, Base.nabd_stats q = nabd_stats q) :=
  ⟨fun _ _ => rfl, fun _ _ => rfl, fun _ _ => rfl, fun _ _ => rfl,
   fun _ => rfl, fun _ => rfl, fun _ => rfl, fun _ => rfl, fun _ => rfl⟩

/-! ## Commit has no length check (claim C10) -/

/-- **C10.**  `nabd_commit` performs no bound check on its length argument:
whenever a reservation is outstanding (taken at the current `head`), commit
returns `NABD_OK` for **every** `len`, stores `length = len mod 2^16` in
the slot header, and advances `head` by 1 — in particular, committing a
`len` with `slot_size - 8 < len < 2^16` publishes a slot whose recorded
length exceeds the slot's payload capacity `slot_size - 8`. -/
theorem c10_commit_no_bound_check (q : Nabd) (len : Nat)
    (hres : q.reserved = true) (hpos : q.reserve_pos = q.head) :
    (nabd_commit q len).1 = NABD_OK ∧
    (nabd_commit q len).2.head = q.head + 1 ∧
    ((nabd_commit q len).2.headers (slotIndex q q.head)).length = len % U16 ∧
    (q.slot_size - HDR_SIZE < len → len < U16 →
      q.slot_size - HDR_SIZE <
        ((nabd_commit q len).2.headers (slotIndex q q.head)).length) := by
  have h0 : ¬ (q.reserved = false) := by rw [hres]; simp
  have e : nabd_commit q len =
      (NABD_OK, { q with
        headers := updFn q.headers (slotIndex q q.reserve_pos)
          ⟨len % U16, 0, q.reserve_pos % U32⟩,
        head := q.reserve_pos + 1,
        reserved := false }) := by
    simp only [nabd_commit]
    rw [if_neg h0]
  have ehdr : ((nabd_commit q len).2.headers (slotIndex q q.head)).length = len % U16 := by
    rw [e]
    dsimp only
    rw [hpos]
    simp only [updFn, eq_self_iff_true, if_true]
  have ehead : (nabd_commit q len).2.head = q.head + 1 := by
    rw [e]
    dsimp only
    omega
  refine ⟨by rw [e], ehead, ehdr, ?_⟩
  intro hbig hsmall
  rw [ehdr, Nat.mod_eq_of_lt hsmall]
  exact hbig

theorem c10_commit_no_bound_check_witness :
    (nabd_commit c6Q 60).1 = NABD_OK ∧
    (nabd_commit c6Q 60).2.head = c6Q.head + 1 ∧
    ((nabd_commit c6Q 60).2.headers (slotIndex c6Q c6Q.head)).length = 60 % U16 ∧
    (c6Q.slot_size - HDR_SIZE < 60 → 60 < U16 →
      c6Q.slot_size - HDR_SIZE <
        ((nabd_commit c6Q 60).2.headers (slotIndex c6Q c6Q.head)).length) :=
  c10_commit_no_bound_check c6Q 60 (by decide) (by decide)
